import Mathlib

/-!
Shallow embedding of the Calculus_plotter repository (src/app.py and
src/Calculus_plotter.py).

The core of app.py is the `/plot` view: it validates the domain bounds,
smoke-evaluates the user expression string with `eval(function_string,
ALLOWED_GLOBALS, ...)` at `x = 1`, and then samples the expression over
`np.linspace(x_min, x_max, 200)`, converting per-point exceptions and
complex results to `np.nan`.

The embedding models:
- Python numeric values.  Python `int` is exact (`ℤ`); Python `float` and
  `np.float64` are modelled as exact rationals extended with the IEEE
  special values `inf`, `-inf`, `nan`.  Rounding is not modelled (every
  value exercised by the claims is exactly representable); what IS
  modelled is the semantic difference the source depends on: dividing a
  Python `int`/`float` by zero raises `ZeroDivisionError`, while NumPy
  float64 division by zero returns `inf`/`nan` with a `RuntimeWarning`
  and no exception.
- CPython `eval` name resolution: locals (`x`), then the globals dict
  `ALLOWED_GLOBALS`, then the implicitly inserted `__builtins__` (CPython
  inserts builtins into a globals dict that lacks the key; the source's
  own comment notes that builtins remain available).
- The transcendental library functions (`math.sin`, ...) take irrational
  values a rational embedding cannot fix, so their finite values are
  parameters (`MathImpl`); their domain checks (where CPython raises
  `ValueError`) are explicit in the evaluator.
-/

/-!
Rational arithmetic primitives.  The library's `Rat.add`, `Rat.mul`,
`Rat.inv`, ... are `@[irreducible]`, so concrete runs of the embedded
code would not reduce inside the kernel.  The primitives below compute
the same values through `mkRat` (which does reduce); the `q*_eq` lemmas
identify them with the field operations of `ℚ`, so theorems can be
stated with ordinary arithmetic.
-/

/-- Negation on `ℚ`, kernel-reducible. -/
def qNeg (a : ℚ) : ℚ := mkRat (-a.num) a.den

/-- Addition on `ℚ`, kernel-reducible. -/
def qAdd (a b : ℚ) : ℚ :=
  mkRat (a.num * (b.den : ℤ) + b.num * (a.den : ℤ)) (a.den * b.den)

/-- Subtraction on `ℚ`, kernel-reducible. -/
def qSub (a b : ℚ) : ℚ := qAdd a (qNeg b)

/-- Multiplication on `ℚ`, kernel-reducible. -/
def qMul (a b : ℚ) : ℚ := mkRat (a.num * b.num) (a.den * b.den)

/-- Inverse on `ℚ` (`0⁻¹ = 0`), kernel-reducible. -/
def qInv (a : ℚ) : ℚ :=
  if 0 ≤ a.num then mkRat (a.den : ℤ) a.num.toNat
  else mkRat (-(a.den : ℤ)) (-a.num).toNat

/-- Division on `ℚ` (division by zero yields `0`, as `Rat.div` does),
kernel-reducible. -/
def qDiv (a b : ℚ) : ℚ := qMul a (qInv b)

/-- Absolute value on `ℚ`, kernel-reducible. -/
def qAbs (a : ℚ) : ℚ := mkRat |a.num| a.den

/-- Natural power on `ℚ`, kernel-reducible. -/
def qPowN (a : ℚ) : ℕ → ℚ
  | 0 => 1
  | n + 1 => qMul (qPowN a n) a

/-- Integer power on `ℚ`, kernel-reducible. -/
def qPowZ (a : ℚ) (n : ℤ) : ℚ :=
  if 0 ≤ n then qPowN a n.toNat else qInv (qPowN a (-n).toNat)

/-- Floor of a rational as an integer, kernel-reducible. -/
def qFloorZ (a : ℚ) : ℤ := Int.fdiv a.num a.den

/-- Extended value of a floating-point quantity: an exact rational or one
of the IEEE special values.  Used for both Python `float` and NumPy
`float64` contents. -/
inductive NpVal where
  | finite (q : ℚ)
  | pinf
  | ninf
  | nan
  deriving DecidableEq

/-- Negation on extended float values. -/
def npNeg : NpVal → NpVal
  | .finite q => .finite (qNeg q)
  | .pinf => .ninf
  | .ninf => .pinf
  | .nan => .nan

/-- Absolute value on extended float values. -/
def npAbs : NpVal → NpVal
  | .finite q => .finite (qAbs q)
  | .pinf => .pinf
  | .ninf => .pinf
  | .nan => .nan

/-- IEEE-style addition on extended float values. -/
def npAdd : NpVal → NpVal → NpVal
  | .nan, _ => .nan
  | _, .nan => .nan
  | .pinf, .ninf => .nan
  | .ninf, .pinf => .nan
  | .pinf, _ => .pinf
  | _, .pinf => .pinf
  | .ninf, _ => .ninf
  | _, .ninf => .ninf
  | .finite a, .finite b => .finite (qAdd a b)

/-- IEEE-style subtraction on extended float values. -/
def npSub (a b : NpVal) : NpVal := npAdd a (npNeg b)

/-- IEEE-style multiplication on extended float values. -/
def npMul : NpVal → NpVal → NpVal
  | .nan, _ => .nan
  | _, .nan => .nan
  | .finite a, .finite b => .finite (qMul a b)
  | .finite a, .pinf => if a > 0 then .pinf else if a < 0 then .ninf else .nan
  | .finite a, .ninf => if a > 0 then .ninf else if a < 0 then .pinf else .nan
  | .pinf, .finite b => if b > 0 then .pinf else if b < 0 then .ninf else .nan
  | .ninf, .finite b => if b > 0 then .ninf else if b < 0 then .pinf else .nan
  | .pinf, .pinf => .pinf
  | .pinf, .ninf => .ninf
  | .ninf, .pinf => .ninf
  | .ninf, .ninf => .pinf

/-- IEEE-style division on extended float values: never raises; division
of a nonzero finite value by zero yields a signed infinity and `0/0`
yields `nan` (NumPy float64 behavior, which emits a `RuntimeWarning`
rather than an exception). -/
def npDiv : NpVal → NpVal → NpVal
  | .nan, _ => .nan
  | _, .nan => .nan
  | .finite a, .finite b =>
      if b = 0 then (if a > 0 then .pinf else if a < 0 then .ninf else .nan)
      else .finite (qDiv a b)
  | .finite _, .pinf => .finite 0
  | .finite _, .ninf => .finite 0
  | .pinf, .finite b => if b < 0 then .ninf else .pinf
  | .ninf, .finite b => if b < 0 then .pinf else .ninf
  | .pinf, .pinf => .nan
  | .pinf, .ninf => .nan
  | .ninf, .pinf => .nan
  | .ninf, .ninf => .nan

/-- Whether a float value originated from Python (`float`) or NumPy
(`np.float64`).  The sampler's grid points are NumPy scalars, the smoke
test's `x = 1` is a Python int; division by zero raises only for the
Python kinds. -/
inductive FloatKind where
  | py
  | np
  deriving DecidableEq

/-- A Python numeric object: exact `int`, or a float tagged with its
origin kind. -/
inductive PyNum where
  | int (n : ℤ)
  | float (k : FloatKind) (v : NpVal)
  deriving DecidableEq

/-- The extended-float content of a numeric object. -/
def PyNum.toNp : PyNum → NpVal
  | .int n => .finite n
  | .float _ v => v

/-- True when the numeric object is a NumPy float64. -/
def PyNum.isNp : PyNum → Bool
  | .float .np _ => true
  | _ => false

/-- Kind of the result of a binary float operation: NumPy wins the
promotion, otherwise Python. -/
def kJoin (a b : PyNum) : FloatKind :=
  if a.isNp || b.isNp then .np else .py

/-- Identifiers of the math functions bound in `ALLOWED_GLOBALS`
(`math.sin`, ..., plus built-in `abs` and `math.floor`, reachable as the
attribute `math.floor`). -/
inductive MathFn where
  | sinF | cosF | tanF | asinF | acosF | atanF
  | expF | logF | log10F | sqrtF | absF | floorF
  deriving DecidableEq

/-- Exceptions the embedded evaluator can raise; these model the CPython
exception classes distinguished by the `except` clauses in `plot_view`. -/
inductive PyErr where
  | nameError (n : String)
  | zeroDiv
  | valueErr
  | typeErr
  | attrErr (fld : String)
  | fuelErr
  deriving DecidableEq

/-- A Python runtime value reachable from the evaluated expressions:
numbers, complex numbers (real/imag parts as exact rationals), strings,
modules, the math functions of the allow-list, named builtins, and
opaque objects (file objects, results of unmodelled builtin calls). -/
inductive PyVal where
  | num (v : PyNum)
  | complexVal (re im : ℚ)
  | str (s : String)
  | module (m : String)
  | mathFn (f : MathFn)
  | builtinFn (b : String)
  | other (d : String)
  deriving DecidableEq

/-- Values for the transcendental library functions at finite rational
arguments.  A rational embedding cannot fix `sin 1` etc., so they are
parameters; every theorem below holds for every interpretation.  The
domain conditions under which CPython's `math` functions raise are NOT
part of this structure — they are explicit in `applyMath`. -/
structure MathImpl where
  sinQ : ℚ → ℚ
  cosQ : ℚ → ℚ
  tanQ : ℚ → ℚ
  asinQ : ℚ → ℚ
  acosQ : ℚ → ℚ
  atanQ : ℚ → ℚ
  expQ : ℚ → ℚ
  logQ : ℚ → ℚ
  log10Q : ℚ → ℚ
  sqrtQ : ℚ → ℚ
  powfQ : ℚ → ℚ → ℚ
  powReQ : ℚ → ℚ → ℚ
  powImQ : ℚ → ℚ → ℚ
  piQ : ℚ
  eulerQ : ℚ

/-- A fixed interpretation used by concrete test evaluations; the
theorems quantify over every interpretation wherever the interpretation
can matter. -/
def impl0 : MathImpl :=
  ⟨fun _ => 0, fun _ => 0, fun _ => 0, fun _ => 0, fun _ => 0, fun _ => 0,
   fun _ => 0, fun _ => 0, fun _ => 0, fun _ => 0,
   fun _ _ => 0, fun _ _ => 0, fun _ _ => 0, 0, 0⟩

/-- Two's-complement bitwise xor on Python ints (the `^` operator; the
source's error message points out that `x^2` is well-formed but is not
exponentiation). -/
def intXor (m n : ℤ) : ℤ :=
  if 0 ≤ m then
    if 0 ≤ n then ((Nat.xor m.toNat n.toNat : ℕ) : ℤ)
    else -((Nat.xor m.toNat (-n - 1).toNat : ℕ) : ℤ) - 1
  else
    if 0 ≤ n then -((Nat.xor (-m - 1).toNat n.toNat : ℕ) : ℤ) - 1
    else ((Nat.xor (-m - 1).toNat (-n - 1).toNat : ℕ) : ℤ)

/-- The `ALLOWED_GLOBALS` dict of src/app.py (lines 25-42): the globals
passed to `eval`.  `np` and `math` are whole modules; the rest are bound
functions/constants. -/
def ALLOWED_GLOBALS (impl : MathImpl) (n : String) : Option PyVal :=
  if n = "np" then some (.module "np")
  else if n = "math" then some (.module "math")
  else if n = "sin" then some (.mathFn .sinF)
  else if n = "cos" then some (.mathFn .cosF)
  else if n = "tan" then some (.mathFn .tanF)
  else if n = "asin" then some (.mathFn .asinF)
  else if n = "acos" then some (.mathFn .acosF)
  else if n = "atan" then some (.mathFn .atanF)
  else if n = "exp" then some (.mathFn .expF)
  else if n = "log" then some (.mathFn .logF)
  else if n = "log10" then some (.mathFn .log10F)
  else if n = "sqrt" then some (.mathFn .sqrtF)
  else if n = "abs" then some (.mathFn .absF)
  else if n = "pi" then some (.num (.float .py (.finite impl.piQ)))
  else if n = "e" then some (.num (.float .py (.finite impl.eulerQ)))
  else none

/-- Names of the CPython builtins relevant here.  CPython `eval` inserts
`__builtins__` into a globals dict that lacks the key, so every builtin
stays reachable from the evaluated string (the source notes this in the
comment under `ALLOWED_GLOBALS`).  The list is a representative subset
of the builtins module containing every builtin the spec or claims
mention. -/
def builtinNames : List String :=
  ["__import__", "open", "eval", "exec", "compile", "len", "pow", "min",
   "max", "sum", "round", "int", "float", "complex", "str", "bool",
   "list", "dict", "tuple", "range", "print", "getattr", "setattr",
   "globals", "locals", "vars", "dir", "type", "id", "hex", "oct",
   "bin", "ord", "chr", "input", "repr", "iter", "next", "map",
   "filter", "zip", "sorted", "reversed", "enumerate", "hash",
   "isinstance", "issubclass", "callable", "format", "divmod"]

/-- CPython `eval` name resolution for the call sites in `plot_view`:
locals (`x` only), then `ALLOWED_GLOBALS`, then builtins; any other
identifier raises `NameError` carrying the name. -/
def lookupName (impl : MathImpl) (xv : PyNum) (n : String) : Except PyErr PyVal :=
  if n = "x" then .ok (.num xv)
  else
    match ALLOWED_GLOBALS impl n with
    | some v => .ok v
    | none =>
        if builtinNames.contains n then .ok (.builtinFn n)
        else .error (.nameError n)

/-- Application of the allow-listed math functions (`math.sin`, ...,
built-in `abs`, and `math.floor` reached via attribute access).  The
`math` module functions accept one numeric argument, raise `ValueError`
outside their real domain (`log`/`log10` on non-positives, `sqrt` on
negatives, `asin`/`acos` outside `[-1, 1]`), return a Python float at
finite arguments, and propagate `nan`; infinite arguments are modelled
coarsely as `ValueError` (no claim exercises them).  `abs` returns a
value of the argument's own type, `floor` an int. -/
def applyMath (impl : MathImpl) (f : MathFn) (args : List PyVal) :
    Except PyErr PyVal :=
  match args with
  | [.num v] =>
      match f with
      | .absF =>
          match v with
          | .int n => .ok (.num (.int |n|))
          | .float k w => .ok (.num (.float k (npAbs w)))
      | .floorF =>
          match v.toNp with
          | .finite q => .ok (.num (.int (qFloorZ q)))
          | _ => .error .valueErr
      | f1 =>
          match v.toNp with
          | .nan => .ok (.num (.float .py .nan))
          | .pinf => .error .valueErr
          | .ninf => .error .valueErr
          | .finite q =>
              match f1 with
              | .logF =>
                  if q ≤ 0 then .error .valueErr
                  else .ok (.num (.float .py (.finite (impl.logQ q))))
              | .log10F =>
                  if q ≤ 0 then .error .valueErr
                  else .ok (.num (.float .py (.finite (impl.log10Q q))))
              | .sqrtF =>
                  if q < 0 then .error .valueErr
                  else .ok (.num (.float .py (.finite (impl.sqrtQ q))))
              | .asinF =>
                  if q < -1 ∨ 1 < q then .error .valueErr
                  else .ok (.num (.float .py (.finite (impl.asinQ q))))
              | .acosF =>
                  if q < -1 ∨ 1 < q then .error .valueErr
                  else .ok (.num (.float .py (.finite (impl.acosQ q))))
              | .sinF => .ok (.num (.float .py (.finite (impl.sinQ q))))
              | .cosF => .ok (.num (.float .py (.finite (impl.cosQ q))))
              | .tanF => .ok (.num (.float .py (.finite (impl.tanQ q))))
              | .atanF => .ok (.num (.float .py (.finite (impl.atanQ q))))
              | .expF => .ok (.num (.float .py (.finite (impl.expQ q))))
              | .absF => .error .typeErr
              | .floorF => .error .typeErr
  | _ => .error .typeErr

/-- Attribute access.  `math` exposes its functions and constants; `np`
and other modules (e.g. an imported `os`) expose their attributes as
opaque objects — the point the claims probe is that attribute access on
the allow-listed module objects succeeds rather than being rejected.
Attribute access on numbers/strings is modelled coarsely as
`AttributeError`. -/
def getAttrOf (impl : MathImpl) (v : PyVal) (fld : String) :
    Except PyErr PyVal :=
  match v with
  | .module "math" =>
      if fld = "sin" then .ok (.mathFn .sinF)
      else if fld = "cos" then .ok (.mathFn .cosF)
      else if fld = "tan" then .ok (.mathFn .tanF)
      else if fld = "asin" then .ok (.mathFn .asinF)
      else if fld = "acos" then .ok (.mathFn .acosF)
      else if fld = "atan" then .ok (.mathFn .atanF)
      else if fld = "exp" then .ok (.mathFn .expF)
      else if fld = "log" then .ok (.mathFn .logF)
      else if fld = "log10" then .ok (.mathFn .log10F)
      else if fld = "sqrt" then .ok (.mathFn .sqrtF)
      else if fld = "floor" then .ok (.mathFn .floorF)
      else if fld = "pi" then .ok (.num (.float .py (.finite impl.piQ)))
      else if fld = "e" then .ok (.num (.float .py (.finite impl.eulerQ)))
      else .error (.attrErr fld)
  | .module m => .ok (.other (m ++ "." ++ fld))
  | _ => .error (.attrErr fld)

/-- Application of builtins.  `__import__` on a module-name string
performs the import and returns the module; `open` returns a file
object (with the smoke value `x = 1` it opens file descriptor 1);
`eval` on a string executes it (opaque result here) and raises
`TypeError` on a non-string such as the int `1`; remaining builtins are
opaque constants — an abstraction of the single call's value, refined
by the stateful semantics (`evalFS`) where cross-call state matters. -/
def applyBuiltin (b : String) (args : List PyVal) : Except PyErr PyVal :=
  if b = "__import__" then
    match args with
    | [.str s] => .ok (.module s)
    | _ => .error .typeErr
  else if b = "open" then
    match args with
    | [] => .error .typeErr
    | _ => .ok (.other "file object")
  else if b = "eval" then
    match args with
    | [.str s] => .ok (.other ("dynamic eval of " ++ s))
    | _ => .error .typeErr
  else if b = "len" then
    match args with
    | [.str s] => .ok (.num (.int s.length))
    | _ => .error .typeErr
  else .ok (.other (b ++ " result"))

/-- Calling a value: math functions and builtins apply; opaque objects
(e.g. attributes of `np` or of an imported module) call opaquely;
numbers, strings, complex numbers and module objects are not callable
(`TypeError`).  Representing an opaque call by a constant is an
abstraction of the single call's value only: where statefulness across
calls matters (the idempotence claim), the refinement `evalFS` below
gives the stateful library call its real state-advancing semantics
instead of this constant. -/
def applyCall (impl : MathImpl) (fv : PyVal) (args : List PyVal) :
    Except PyErr PyVal :=
  match fv with
  | .mathFn f => applyMath impl f args
  | .builtinFn b => applyBuiltin b args
  | .other d => .ok (.other (d ++ " call"))
  | _ => .error .typeErr

/-- Binary operators of the embedded expression grammar. -/
inductive BinOp where
  | addB | subB | mulB | divB | powB | xorB
  deriving DecidableEq

/-- Python `/` on numbers.  `int/int` and Python-float division by zero
raise `ZeroDivisionError`; when a NumPy float64 participates the result
is a NumPy float64 and division by zero follows IEEE (signed infinity /
`nan`) without raising — this is the behavior split the sampler's grid
of `np.float64` values makes observable. -/
def pyDivN (a b : PyNum) : Except PyErr PyNum :=
  match kJoin a b with
  | .np => .ok (.float .np (npDiv a.toNp b.toNp))
  | .py =>
      if b.toNp = .finite 0 then .error .zeroDiv
      else .ok (.float .py (npDiv a.toNp b.toNp))

/-- Python `**` with an extended-float base and an integer exponent,
producing a float of the given kind: exact power for finite bases,
`ZeroDivisionError` (Python) or `inf` (NumPy) for `0` to a negative
power, IEEE conventions at the specials. -/
def npPowInt (k : FloatKind) (v : NpVal) (n : ℤ) : Except PyErr PyVal :=
  match v with
  | .finite q =>
      if 0 ≤ n then .ok (.num (.float k (.finite (qPowN q n.toNat))))
      else if q = 0 then
        match k with
        | .py => .error .zeroDiv
        | .np => .ok (.num (.float .np .pinf))
      else .ok (.num (.float k (.finite (qPowZ q n))))
  | .nan => if n = 0 then .ok (.num (.float k (.finite 1)))
            else .ok (.num (.float k .nan))
  | .pinf => if n = 0 then .ok (.num (.float k (.finite 1)))
             else if 0 < n then .ok (.num (.float k .pinf))
             else .ok (.num (.float k (.finite 0)))
  | .ninf => if n = 0 then .ok (.num (.float k (.finite 1)))
             else if 0 < n then
               (if n % 2 = 0 then .ok (.num (.float k .pinf))
                else .ok (.num (.float k .ninf)))
             else .ok (.num (.float k (.finite 0)))

/-- Python `**` on numbers.  An int exponent is exact (negative exponent
of an int base yields a float, `0` to a negative power raises
`ZeroDivisionError` for Python kinds and yields `inf` for NumPy); a
fractional exponent on a positive base takes the parametric power
value; a fractional exponent on a negative base yields a complex number
for Python kinds and `nan` for NumPy. -/
def pyPowN (impl : MathImpl) (a b : PyNum) : Except PyErr PyVal :=
  match b with
  | .int n =>
      match a with
      | .int m =>
          if 0 ≤ n then .ok (.num (.int (m ^ n.toNat)))
          else if m = 0 then .error .zeroDiv
          else .ok (.num (.float .py (.finite (qPowZ (m : ℚ) n))))
      | .float k v => npPowInt k v n
  | .float kb vb =>
      let k := kJoin a (.float kb vb)
      match vb with
      | .finite r =>
          if r.den = 1 then npPowInt k a.toNp r.num
          else
            match a.toNp with
            | .finite q =>
                if 0 < q then .ok (.num (.float k (.finite (impl.powfQ q r))))
                else if q = 0 then
                  (if 0 < r then .ok (.num (.float k (.finite 0)))
                   else match k with
                        | .py => .error .zeroDiv
                        | .np => .ok (.num (.float .np .pinf)))
                else
                  match k with
                  | .py => .ok (.complexVal (impl.powReQ q r) (impl.powImQ q r))
                  | .np => .ok (.num (.float .np .nan))
            | .nan => .ok (.num (.float k .nan))
            | .pinf => if 0 < r then .ok (.num (.float k .pinf))
                       else .ok (.num (.float k (.finite 0)))
            | .ninf => .ok (.num (.float k .nan))
      | .nan => .ok (.num (.float k .nan))
      | .pinf =>
          match a.toNp with
          | .finite q => if q = 1 then .ok (.num (.float k (.finite 1)))
                         else if -1 < q ∧ q < 1 then .ok (.num (.float k (.finite 0)))
                         else .ok (.num (.float k .pinf))
          | _ => .ok (.num (.float k .pinf))
      | .ninf =>
          match a.toNp with
          | .finite q => if q = 1 then .ok (.num (.float k (.finite 1)))
                         else if -1 < q ∧ q < 1 then .ok (.num (.float k .pinf))
                         else .ok (.num (.float k (.finite 0)))
          | _ => .ok (.num (.float k (.finite 0)))

/-- Binary operation on two evaluated operands.  Only numeric operands
are modelled (string concatenation and the container operators are
outside the expression fragment the claims exercise); non-numeric
operands raise `TypeError`, as Python does for every operand pairing
reachable here (module + int, function * int, ...). -/
def evalBin (impl : MathImpl) (op : BinOp) (va vb : PyVal) :
    Except PyErr PyVal :=
  match va, vb with
  | .num a, .num b =>
      match op with
      | .addB =>
          match a, b with
          | .int m, .int n => .ok (.num (.int (m + n)))
          | _, _ => .ok (.num (.float (kJoin a b) (npAdd a.toNp b.toNp)))
      | .subB =>
          match a, b with
          | .int m, .int n => .ok (.num (.int (m - n)))
          | _, _ => .ok (.num (.float (kJoin a b) (npSub a.toNp b.toNp)))
      | .mulB =>
          match a, b with
          | .int m, .int n => .ok (.num (.int (m * n)))
          | _, _ => .ok (.num (.float (kJoin a b) (npMul a.toNp b.toNp)))
      | .divB => pyDivN a b >>= fun r => .ok (.num r)
      | .powB => pyPowN impl a b
      | .xorB =>
          match a, b with
          | .int m, .int n => .ok (.num (.int (intXor m n)))
          | _, _ => .error .typeErr
  | _, _ => .error .typeErr

/-- Unary minus: negates numbers, raises `TypeError` otherwise. -/
def evalNeg : PyVal → Except PyErr PyVal
  | .num (.int n) => .ok (.num (.int (-n)))
  | .num (.float k v) => .ok (.num (.float k (npNeg v)))
  | _ => .error .typeErr

/-- Abstract syntax of the Python expression fragment reachable from the
plotter's input strings: literals, names, unary minus, the binary
operators, attribute access, and calls. -/
inductive PyExpr where
  | intLit (n : ℤ)
  | floatLit (q : ℚ)
  | strLit (s : String)
  | nameE (s : String)
  | negE (a : PyExpr)
  | bin (op : BinOp) (a b : PyExpr)
  | attrE (a : PyExpr) (fld : String)
  | callE (f : PyExpr) (args : List PyExpr)

/-- Single fuel-indexed evaluation function covering expressions and
argument lists (the sum avoids mutual recursion so that concrete runs
reduce definitionally).  Fuel only bounds recursion depth; the
`compile` wrapper always supplies enough for its expression. -/
def evalF (impl : MathImpl) (xv : PyNum) :
    ℕ → PyExpr ⊕ List PyExpr → Except PyErr (PyVal ⊕ List PyVal)
  | 0, _ => .error .fuelErr
  | fuel + 1, .inl e =>
      match e with
      | .intLit n => .ok (.inl (.num (.int n)))
      | .floatLit q => .ok (.inl (.num (.float .py (.finite q))))
      | .strLit s => .ok (.inl (.str s))
      | .nameE s => lookupName impl xv s >>= fun v => .ok (.inl v)
      | .negE a =>
          evalF impl xv fuel (.inl a) >>= fun r =>
            match r with
            | .inl v => evalNeg v >>= fun w => .ok (.inl w)
            | .inr _ => .error .fuelErr
      | .bin op a b =>
          evalF impl xv fuel (.inl a) >>= fun ra =>
            evalF impl xv fuel (.inl b) >>= fun rb =>
              match ra, rb with
              | .inl va, .inl vb =>
                  evalBin impl op va vb >>= fun w => .ok (.inl w)
              | _, _ => .error .fuelErr
      | .attrE a fld =>
          evalF impl xv fuel (.inl a) >>= fun r =>
            match r with
            | .inl v => getAttrOf impl v fld >>= fun w => .ok (.inl w)
            | .inr _ => .error .fuelErr
      | .callE f args =>
          evalF impl xv fuel (.inl f) >>= fun rf =>
            evalF impl xv fuel (.inr args) >>= fun ras =>
              match rf, ras with
              | .inl fv, .inr avs =>
                  applyCall impl fv avs >>= fun w => .ok (.inl w)
              | _, _ => .error .fuelErr
  | _ + 1, .inr [] => .ok (.inr [])
  | fuel + 1, .inr (a :: rest) =>
      evalF impl xv fuel (.inl a) >>= fun ra =>
        evalF impl xv fuel (.inr rest) >>= fun rr =>
          match ra, rr with
          | .inl va, .inr vs => .ok (.inr (va :: vs))
          | _, _ => .error .fuelErr

/-- A compiled expression: the parsed tree plus the evaluation fuel the
compiler established (ample for the tree; carried so that sampling
reuses exactly the compiled artifact). -/
structure Compiled where
  ast : PyExpr
  fuel : ℕ

/-- Evaluate a compiled expression with `x` bound to the given numeric
value — the body of the `lambda x_val: eval(function_string,
ALLOWED_GLOBALS, ...)` closure of src/app.py line 123. -/
def evalPy (impl : MathImpl) (xv : PyNum) (c : Compiled) :
    Except PyErr PyVal :=
  match evalF impl xv c.fuel (.inl c.ast) with
  | .ok (.inl v) => .ok v
  | .ok (.inr _) => .error .fuelErr
  | .error e => .error e

/-- Tokens of the expression grammar. -/
inductive Tok where
  | numI (n : ℕ)
  | numF (q : ℚ)
  | name (s : String)
  | strT (s : String)
  | plusT | minusT | starT | slashT | dstarT | caretT
  | lparT | rparT | commaT | dotT
  deriving DecidableEq

/-- Decimal digit test (kept on code points so that concrete runs reduce
cheaply). -/
def isDigitC (c : Char) : Bool := 48 ≤ c.toNat && c.toNat ≤ 57

/-- Identifier character test: ASCII letters, digits and underscore. -/
def isIdentC (c : Char) : Bool :=
  (65 ≤ c.toNat && c.toNat ≤ 90) || (97 ≤ c.toNat && c.toNat ≤ 122) ||
  isDigitC c || c.toNat = 95

/-- Identifier start character: letter or underscore. -/
def isIdentStartC (c : Char) : Bool := isIdentC c && !isDigitC c

/-- Numeric value of a digit string. -/
def chars2nat (ds : List Char) : ℕ :=
  ds.foldl (fun a c => a * 10 + (c.toNat - 48)) 0

/-- The double-quote character. -/
def dquoteC : Char := Char.ofNat 34

/-- Tokenizer for the expression fragment: numbers (`12`, `3.14`, `5.`),
identifiers, double-quoted strings, the operators `+ - * / ** ^`,
parentheses, comma and dot.  Any other character fails the whole
tokenization, which the compiler surfaces as a syntax error — as
CPython's tokenizer does on such input. -/
def tokenize : ℕ → List Char → Option (List Tok)
  | 0, _ => none
  | _, [] => some []
  | fuel + 1, c :: cs =>
      if c = ' ' then tokenize fuel cs
      else if isDigitC c then
        let ip := (c :: cs).takeWhile isDigitC
        let rest := (c :: cs).dropWhile isDigitC
        match rest with
        | d :: rest2 =>
            if d = '.' then
              let fp := rest2.takeWhile isDigitC
              let rest3 := rest2.dropWhile isDigitC
              (tokenize fuel rest3).map fun ts =>
                .numF (mkRat (chars2nat ip * 10 ^ fp.length + chars2nat fp : ℕ) (10 ^ fp.length)) :: ts
            else (tokenize fuel rest).map fun ts => .numI (chars2nat ip) :: ts
        | [] => (tokenize fuel []).map fun ts => .numI (chars2nat ip) :: ts
      else if isIdentStartC c then
        let idc := (c :: cs).takeWhile isIdentC
        let rest := (c :: cs).dropWhile isIdentC
        (tokenize fuel rest).map fun ts => .name (String.mk idc) :: ts
      else if c = dquoteC then
        let sc := cs.takeWhile (fun d => !(d = dquoteC))
        let rest := cs.dropWhile (fun d => !(d = dquoteC))
        match rest with
        | d :: rest2 =>
            if d = dquoteC then
              (tokenize fuel rest2).map fun ts => .strT (String.mk sc) :: ts
            else none
        | [] => none
      else if c = '*' then
        match cs with
        | d :: rest2 =>
            if d = '*' then (tokenize fuel rest2).map fun ts => .dstarT :: ts
            else (tokenize fuel cs).map fun ts => .starT :: ts
        | [] => (tokenize fuel cs).map fun ts => .starT :: ts
      else if c = '+' then (tokenize fuel cs).map fun ts => .plusT :: ts
      else if c = '-' then (tokenize fuel cs).map fun ts => .minusT :: ts
      else if c = '/' then (tokenize fuel cs).map fun ts => .slashT :: ts
      else if c = '^' then (tokenize fuel cs).map fun ts => .caretT :: ts
      else if c = '(' then (tokenize fuel cs).map fun ts => .lparT :: ts
      else if c = ')' then (tokenize fuel cs).map fun ts => .rparT :: ts
      else if c = ',' then (tokenize fuel cs).map fun ts => .commaT :: ts
      else if c = '.' then
        let fp := cs.takeWhile isDigitC
        let rest := cs.dropWhile isDigitC
        if fp = [] then (tokenize fuel cs).map fun ts => .dotT :: ts
        else (tokenize fuel rest).map fun ts =>
          .numF (mkRat (chars2nat fp : ℕ) (10 ^ fp.length)) :: ts
      else none

/-- Parser modes: `exprL lvl` parses a binary-expression level (0 = `^`,
1 = `+ -`, 2 = `* /`), `loopB` its left-associative operator loop,
`unaryM` unary minus/plus, `powM` the right-associative `**`, `postM` a
postfix chain of calls and attribute accesses with accumulator
`loopPost`, `argsM` a call argument list, and `atomM` atoms. -/
inductive PMode where
  | exprL (lvl : ℕ)
  | loopB (lvl : ℕ) (acc : PyExpr)
  | unaryM
  | powM
  | postM
  | loopPost (acc : PyExpr)
  | argsM (f : PyExpr) (acc : List PyExpr)
  | atomM

/-- Single fuel-indexed recursive-descent parser (modes instead of
mutual recursion so concrete runs reduce definitionally).  Operator
precedence and associativity follow Python: `^` below `+ -` below
`* /` below unary minus, with `**` binding tighter than unary minus on
its left but accepting a unary expression on its right. -/
def parseF : ℕ → PMode → List Tok → Option (PyExpr × List Tok)
  | 0, _, _ => none
  | fuel + 1, m, toks =>
      match m with
      | .exprL lvl =>
          (parseF fuel (if lvl < 2 then .exprL (lvl + 1) else .unaryM) toks).bind
            fun (l, r) => parseF fuel (.loopB lvl l) r
      | .loopB lvl acc =>
          match lvl, toks with
          | 0, .caretT :: r =>
              (parseF fuel (.exprL 1) r).bind fun (rhs, r2) =>
                parseF fuel (.loopB 0 (.bin .xorB acc rhs)) r2
          | 1, .plusT :: r =>
              (parseF fuel (.exprL 2) r).bind fun (rhs, r2) =>
                parseF fuel (.loopB 1 (.bin .addB acc rhs)) r2
          | 1, .minusT :: r =>
              (parseF fuel (.exprL 2) r).bind fun (rhs, r2) =>
                parseF fuel (.loopB 1 (.bin .subB acc rhs)) r2
          | 2, .starT :: r =>
              (parseF fuel .unaryM r).bind fun (rhs, r2) =>
                parseF fuel (.loopB 2 (.bin .mulB acc rhs)) r2
          | 2, .slashT :: r =>
              (parseF fuel .unaryM r).bind fun (rhs, r2) =>
                parseF fuel (.loopB 2 (.bin .divB acc rhs)) r2
          | _, _ => some (acc, toks)
      | .unaryM =>
          match toks with
          | .minusT :: r =>
              (parseF fuel .unaryM r).bind fun (a, r2) => some (.negE a, r2)
          | .plusT :: r => parseF fuel .unaryM r
          | _ => parseF fuel .powM toks
      | .powM =>
          (parseF fuel .postM toks).bind fun (b, r) =>
            match r with
            | .dstarT :: r2 =>
                (parseF fuel .unaryM r2).bind fun (e2, r3) =>
                  some (.bin .powB b e2, r3)
            | _ => some (b, r)
      | .postM =>
          (parseF fuel .atomM toks).bind fun (a, r) =>
            parseF fuel (.loopPost a) r
      | .loopPost acc =>
          match toks with
          | .lparT :: .rparT :: r => parseF fuel (.loopPost (.callE acc [])) r
          | .lparT :: r => parseF fuel (.argsM acc []) r
          | .dotT :: .name f :: r => parseF fuel (.loopPost (.attrE acc f)) r
          | _ => some (acc, toks)
      | .argsM f acc =>
          (parseF fuel (.exprL 0) toks).bind fun (a, r) =>
            match r with
            | .commaT :: r2 => parseF fuel (.argsM f (acc ++ [a])) r2
            | .rparT :: r2 => parseF fuel (.loopPost (.callE f (acc ++ [a]))) r2
            | _ => none
      | .atomM =>
          match toks with
          | .numI n :: r => some (.intLit n, r)
          | .numF q :: r => some (.floatLit q, r)
          | .strT s :: r => some (.strLit s, r)
          | .name s :: r => some (.nameE s, r)
          | .lparT :: r =>
              (parseF fuel (.exprL 0) r).bind fun (e, r2) =>
                match r2 with
                | .rparT :: r3 => some (e, r3)
                | _ => none
          | _ => none

/-- Parse an expression string: tokenize, parse a full expression, and
require every token consumed.  `none` models `SyntaxError` from
CPython's `eval` on the string.  The parser covers the expression
fragment the plotter's grammar-of-interest uses (arithmetic, names,
calls, attributes); fuel is ample for any input of the given length. -/
def parseExpr (s : String) : Option PyExpr :=
  (tokenize (s.length + 1) s.data).bind fun toks =>
    match parseF (8 * (s.length + 2)) (.exprL 0) toks with
    | some (e, []) => some e
    | _ => none

/-- The error taxonomy of the compile step, mirroring the `except`
clauses of src/app.py lines 124-133: `SyntaxError` maps to the syntax
branch, `NameError` to the unknown-name branch carrying the extracted
name, and every other exception to the catch-all branch. -/
inductive CompileError where
  | syntaxErr
  | unknownName (n : String)
  | otherErr (e : PyErr)
  deriving DecidableEq

/-- The compile step of src/app.py lines 116-133: parse the string
(CPython compiles it; failure is `SyntaxError`) and smoke-evaluate at
`x = 1` (a Python int); a `NameError` from the smoke run carries the
offending name, any other exception lands in the catch-all branch, and
on success the compiled expression closes over the string. -/
def compileExpr (impl : MathImpl) (s : String) : Except CompileError Compiled :=
  match parseExpr s with
  | none => .error .syntaxErr
  | some ast =>
      match evalF impl (.int 1) (8 * (s.length + 2)) (.inl ast) with
      | .error (.nameError n) => .error (.unknownName n)
      | .error e => .error (.otherErr e)
      | .ok _ => .ok ⟨ast, 8 * (s.length + 2)⟩

/-- `np.linspace a b n`: `n` evenly spaced values from `a` to `b`
inclusive (src/app.py line 136 with `n = 200`, src/Calculus_plotter.py
line 53 with `n = 100`). -/
def linspace (a b : ℚ) (n : ℕ) : List ℚ :=
  (List.range n).map fun (i : ℕ) =>
    qAdd a (qDiv (qMul ((i : ℕ) : ℚ) (qSub b a)) (qSub (n : ℚ) 1))

/-- One iteration of the sampling loop of src/app.py lines 140-152: the
grid value is an `np.float64`; an exception from the evaluation is
caught and recorded as `np.nan` (`none` here), a complex result is
likewise recorded as `np.nan`, and any other value is kept. -/
def samplePoint (impl : MathImpl) (c : Compiled) (xq : ℚ) : Option PyVal :=
  match evalPy impl (.float .np (.finite xq)) c with
  | .error _ => none
  | .ok (.complexVal _ _) => none
  | .ok v => some v

/-- The sampling loop: evaluate the compiled expression at every grid
point of `linspace a b n`, isolating per-point failures. -/
def sample (impl : MathImpl) (c : Compiled) (a b : ℚ) (n : ℕ) :
    List (ℚ × Option PyVal) :=
  (linspace a b n).map fun xq => (xq, samplePoint impl c xq)

/-- CPython `float(str)` restricted to the plain signed decimal literals
the claims exercise (optional sign, digits with an optional fractional
part); every other string is `None`, modelling the `ValueError` branch.
(CPython accepts further forms — exponents, `inf`, surrounding
whitespace — that no claim touches.) -/
def pyFloat (s : String) : Option ℚ :=
  let core : List Char → Option ℚ := fun cs =>
    let ip := cs.takeWhile isDigitC
    let r1 := cs.dropWhile isDigitC
    match r1 with
    | [] => if ip = [] then none else some (mkRat (chars2nat ip : ℕ) 1)
    | c :: r2 =>
        if c = '.' then
          let fp := r2.takeWhile isDigitC
          let r3 := r2.dropWhile isDigitC
          if r3 = [] && !(ip = [] && fp = []) then
            some (mkRat (chars2nat ip * 10 ^ fp.length + chars2nat fp : ℕ) (10 ^ fp.length))
          else none
        else none
  match s.data with
  | '-' :: cs => (core cs).map qNeg
  | '+' :: cs => core cs
  | cs => core cs

/-- Outcome of a `/plot` request as far as the core is concerned: one of
the error template renders of src/app.py (distinguished by which branch
produced them) or the sampled series handed to the renderer. -/
inductive ViewResult where
  | errEmptyFunction
  | errMissingBounds
  | errBadNumber
  | errBadRange
  | errSyntax
  | errName (n : String)
  | errOther
  | okPlot (series : List (ℚ × Option PyVal))

/-- The `/plot` view of src/app.py lines 90-152 (the plotting back end
past the sampling loop is the external renderer): empty-field checks,
`float` conversion of the bounds (`ValueError` → bad-number branch),
the range check, the compile step, and the 200-point sampling loop. -/
def plot_view (impl : MathImpl) (fs aS bS : String) : ViewResult :=
  if fs = "" then .errEmptyFunction
  else if aS = "" ∨ bS = "" then .errMissingBounds
  else
    match pyFloat aS, pyFloat bS with
    | some xmin, some xmax =>
        if xmax ≤ xmin then .errBadRange
        else
          match compileExpr impl fs with
          | .error .syntaxErr => .errSyntax
          | .error (.unknownName n) => .errName n
          | .error (.otherErr _) => .errOther
          | .ok c => .okPlot (sample impl c xmin xmax 200)
    | _, _ => .errBadNumber

/-- The `func` argument of `plot_function` in src/Calculus_plotter.py: a
callable (modelled as a function from the numeric grid value to an
evaluation outcome) or a non-callable object. -/
inductive FuncObj where
  | fnObj (f : ℚ → Except PyErr PyVal)
  | notCallable (desc : String)

/-- A bound argument of `plot_function`: already numeric, or a string to
be converted by `float`. -/
inductive BoundVal where
  | numB (q : ℚ)
  | strB (s : String)

/-- `float()` conversion of a bound argument. -/
def pyFloatVal : BoundVal → Option ℚ
  | .numB q => some q
  | .strB s => pyFloat s

/-- Errors `plot_function` can raise. -/
inductive PFErr where
  | typeErr
  | valueErr
  deriving DecidableEq

/-- `plot_function` of src/Calculus_plotter.py lines 10-63 up to the
renderer calls: the callable check (`TypeError`), the float conversion
of the bounds (`ValueError`), the range check (`ValueError`), then the
100-point loop in which a per-point exception is replaced by `np.nan`
(`none`). -/
def plot_function (func : FuncObj) (xminV xmaxV : BoundVal) :
    Except PFErr (List (ℚ × Option PyVal)) :=
  match func with
  | .notCallable _ => .error .typeErr
  | .fnObj f =>
      match pyFloatVal xminV, pyFloatVal xmaxV with
      | some xmin, some xmax =>
          if xmax ≤ xmin then .error .valueErr
          else .ok ((linspace xmin xmax 100).map fun xq =>
            (xq, match f xq with
                 | .ok v => some v
                 | .error _ => none))
      | _, _ => .error .valueErr


/-- Successive outputs of the process-global random number generator:
`random.random()` returns dyadic rationals whose concrete values depend
on the seed, so — like the transcendental values in `MathImpl` — they
are parameters of the embedding. -/
structure RngImpl where
  out : ℕ → ℚ

/-- A concrete interpretation whose successive outputs differ, as the
real Mersenne Twister's successive draws do. -/
def rng0 : RngImpl := ⟨fun k => (k : ℚ)⟩

/-- Stateful refinement of `evalF`: the same structure and results, but
threading the count of draws the process-global RNG has served, and
giving the stateful library call reachable through the builtins hole
of C1/C2 — `random.random`, the attribute of the imported `random`
module — its real semantics: each call returns the next RNG output and
advances the state.  Every other operation leaves the state untouched,
and the state survives exceptions, as CPython's global state does. -/
def evalFS (impl : MathImpl) (rng : RngImpl) (xv : PyNum) :
    ℕ → ℕ → PyExpr ⊕ List PyExpr → Except PyErr (PyVal ⊕ List PyVal) × ℕ
  | 0, k, _ => (.error .fuelErr, k)
  | fuel + 1, k, .inl e =>
      match e with
      | .intLit n => (.ok (.inl (.num (.int n))), k)
      | .floatLit q => (.ok (.inl (.num (.float .py (.finite q)))), k)
      | .strLit s => (.ok (.inl (.str s)), k)
      | .nameE s =>
          match lookupName impl xv s with
          | .ok v => (.ok (.inl v), k)
          | .error e1 => (.error e1, k)
      | .negE a =>
          match evalFS impl rng xv fuel k (.inl a) with
          | (.error e1, k1) => (.error e1, k1)
          | (.ok (.inl v), k1) =>
              (match evalNeg v with
               | .ok w => (.ok (.inl w), k1)
               | .error e1 => (.error e1, k1))
          | (.ok (.inr _), k1) => (.error .fuelErr, k1)
      | .bin op a b =>
          match evalFS impl rng xv fuel k (.inl a) with
          | (.error e1, k1) => (.error e1, k1)
          | (.ok ra, k1) =>
              match evalFS impl rng xv fuel k1 (.inl b) with
              | (.error e2, k2) => (.error e2, k2)
              | (.ok rb, k2) =>
                  match ra, rb with
                  | .inl va, .inl vb =>
                      (match evalBin impl op va vb with
                       | .ok w => (.ok (.inl w), k2)
                       | .error e3 => (.error e3, k2))
                  | _, _ => (.error .fuelErr, k2)
      | .attrE a fld =>
          match evalFS impl rng xv fuel k (.inl a) with
          | (.error e1, k1) => (.error e1, k1)
          | (.ok (.inl v), k1) =>
              (match getAttrOf impl v fld with
               | .ok w => (.ok (.inl w), k1)
               | .error e1 => (.error e1, k1))
          | (.ok (.inr _), k1) => (.error .fuelErr, k1)
      | .callE f args =>
          match evalFS impl rng xv fuel k (.inl f) with
          | (.error e1, k1) => (.error e1, k1)
          | (.ok rf, k1) =>
              match evalFS impl rng xv fuel k1 (.inr args) with
              | (.error e2, k2) => (.error e2, k2)
              | (.ok ras, k2) =>
                  match rf, ras with
                  | .inl fv, .inr avs =>
                      (match fv, avs with
                       | .other "random.random", [] =>
                           (.ok (.inl (.num (.float .py (.finite (rng.out k2))))),
                            k2 + 1)
                       | _, _ =>
                           match applyCall impl fv avs with
                           | .ok w => (.ok (.inl w), k2)
                           | .error e3 => (.error e3, k2))
                  | _, _ => (.error .fuelErr, k2)
  | _ + 1, k, .inr [] => (.ok (.inr []), k)
  | fuel + 1, k, .inr (a :: rest) =>
      match evalFS impl rng xv fuel k (.inl a) with
      | (.error e1, k1) => (.error e1, k1)
      | (.ok ra, k1) =>
          match evalFS impl rng xv fuel k1 (.inr rest) with
          | (.error e2, k2) => (.error e2, k2)
          | (.ok rr, k2) =>
              match ra, rr with
              | .inl va, .inr vs => (.ok (.inr (va :: vs)), k2)
              | _, _ => (.error .fuelErr, k2)

/-- Stateful counterpart of `evalPy`. -/
def evalPyS (impl : MathImpl) (rng : RngImpl) (xv : PyNum) (c : Compiled)
    (k : ℕ) : Except PyErr PyVal × ℕ :=
  match evalFS impl rng xv c.fuel k (.inl c.ast) with
  | (.ok (.inl v), k1) => (.ok v, k1)
  | (.ok (.inr _), k1) => (.error .fuelErr, k1)
  | (.error e1, k1) => (.error e1, k1)

/-- Stateful counterpart of `samplePoint`: the per-point try/except of
the sampling loop, threading the RNG state. -/
def samplePointS (impl : MathImpl) (rng : RngImpl) (c : Compiled)
    (xq : ℚ) (k : ℕ) : Option PyVal × ℕ :=
  match evalPyS impl rng (.float .np (.finite xq)) c k with
  | (.error _, k1) => (none, k1)
  | (.ok (.complexVal _ _), k1) => (none, k1)
  | (.ok v, k1) => (some v, k1)

/-- The sampling loop threading the RNG state through successive
points — and, when run twice, through successive calls — as the
process-global state persists across the loop of src/app.py lines
140-152. -/
def sampleLoopS (impl : MathImpl) (rng : RngImpl) (c : Compiled) :
    List ℚ → ℕ → List (ℚ × Option PyVal) × ℕ
  | [], k => ([], k)
  | xq :: rest, k =>
      match samplePointS impl rng c xq k with
      | (y, k1) =>
          match sampleLoopS impl rng c rest k1 with
          | (ys, k2) => ((xq, y) :: ys, k2)

/-- Stateful counterpart of `sample`. -/
def sampleS (impl : MathImpl) (rng : RngImpl) (c : Compiled)
    (a b : ℚ) (n : ℕ) (k : ℕ) : List (ℚ × Option PyVal) × ℕ :=
  sampleLoopS impl rng c (linspace a b n) k

/-- The parsed tree of the string passed to `compile` in C9's
counterexample. -/
def rngAst : PyExpr :=
  .callE (.attrE (.callE (.nameE "__import__") [.strLit "random"]) "random") []

/-- The allow-listed names that denote scalars or bound functions — the
non-module entries of `ALLOWED_GLOBALS` plus the reserved variable
`x`. -/
def mathNames : List String :=
  ["x", "sin", "cos", "tan", "asin", "acos", "atan", "exp", "log",
   "log10", "sqrt", "abs", "pi", "e"]

/-- Membership test for `mathNames`. -/
def mathName (s : String) : Bool := mathNames.contains s

/-- Syntactic guard for the expression fragment the spec's sandbox is
meant to admit: literals, the variable `x`, unary minus, the binary
operators, and direct calls to the allow-listed non-module functions —
no attribute access, no other identifiers (in particular no builtins
and no modules).  On this fragment the stateful evaluator is proved to
agree with the pure one and to leave the RNG state untouched. -/
def mathOnlyF : ℕ → PyExpr ⊕ List PyExpr → Bool
  | 0, _ => false
  | fuel + 1, .inl e =>
      match e with
      | .intLit _ => true
      | .floatLit _ => true
      | .strLit _ => true
      | .nameE s => mathName s
      | .negE a => mathOnlyF fuel (.inl a)
      | .bin _ a b => mathOnlyF fuel (.inl a) && mathOnlyF fuel (.inl b)
      | .attrE _ _ => false
      | .callE f args =>
          (match f with
           | .nameE s => mathName s
           | _ => false) && mathOnlyF fuel (.inr args)
  | _ + 1, .inr [] => true
  | fuel + 1, .inr (a :: rest) =>
      mathOnlyF fuel (.inl a) && mathOnlyF fuel (.inr rest)

/-!
Theorems.  First the bridge lemmas identifying the kernel-reducible
rational primitives with the field operations of `ℚ`, then the claim
theorems.
-/

theorem qNeg_eq (a : ℚ) : qNeg a = -a := by
  rw [qNeg, Rat.mkRat_eq_div, Int.cast_neg, neg_div, Rat.num_div_den]

theorem qAdd_eq (a b : ℚ) : qAdd a b = a + b := by
  rw [qAdd, Rat.mkRat_eq_div]
  have ha : ((a.den : ℚ)) ≠ 0 := Nat.cast_ne_zero.mpr a.den_nz
  have hb : ((b.den : ℚ)) ≠ 0 := Nat.cast_ne_zero.mpr b.den_nz
  conv_rhs => rw [← Rat.num_div_den a, ← Rat.num_div_den b, div_add_div _ _ ha hb]
  push_cast
  ring_nf

theorem qSub_eq (a b : ℚ) : qSub a b = a - b := by
  rw [qSub, qAdd_eq, qNeg_eq, sub_eq_add_neg]

theorem qMul_eq (a b : ℚ) : qMul a b = a * b := by
  rw [qMul, Rat.mkRat_eq_div]
  conv_rhs => rw [← Rat.num_div_den a, ← Rat.num_div_den b, div_mul_div_comm]
  push_cast
  ring_nf

theorem qInv_eq (a : ℚ) : qInv a = a⁻¹ := by
  rw [qInv]
  rcases lt_trichotomy a.num 0 with h | h | h
  · rw [if_neg (not_le.mpr h), Rat.mkRat_eq_div]
    have h2 : (((-a.num).toNat : ℕ) : ℚ) = -(a.num : ℚ) := by
      have h3 := Int.toNat_of_nonneg (by omega : (0:ℤ) ≤ -a.num)
      exact_mod_cast congrArg (fun z : ℤ => (z : ℚ)) h3
    rw [h2, Int.cast_neg, neg_div_neg_eq]
    conv_rhs => rw [← Rat.num_div_den a]
    rw [inv_div]
    norm_cast
  · have ha : a = 0 := by
      rw [← Rat.num_div_den a, h]
      simp
    rw [if_pos h.ge, h]
    simp [ha]
  · rw [if_pos h.le, Rat.mkRat_eq_div]
    have h2 : ((a.num.toNat : ℕ) : ℚ) = (a.num : ℚ) := by
      exact_mod_cast congrArg (fun z : ℤ => (z : ℚ)) (Int.toNat_of_nonneg h.le)
    rw [h2]
    conv_rhs => rw [← Rat.num_div_den a]
    rw [inv_div]
    norm_cast

theorem qDiv_eq (a b : ℚ) : qDiv a b = a / b := by
  rw [qDiv, qMul_eq, qInv_eq, div_eq_mul_inv]


theorem lookupName_mathName_not_other (impl : MathImpl) (xv : PyNum)
    (s : String) (h : mathName s = true) (d : String) :
    lookupName impl xv s ≠ .ok (.other d) := by
  have hm : s ∈ mathNames := by
    simpa [mathName] using h
  fin_cases hm <;> simp [lookupName, ALLOWED_GLOBALS]

theorem evalFS_nameE (impl : MathImpl) (rng : RngImpl) (xv : PyNum)
    (fuel k : ℕ) (s : String) :
    evalFS impl rng xv fuel k (.inl (.nameE s)) =
      (evalF impl xv fuel (.inl (.nameE s)), k) := by
  cases fuel with
  | zero => rfl
  | succ m =>
      simp only [evalFS, evalF]
      cases lookupName impl xv s <;> rfl

theorem evalF_nameE_ok (impl : MathImpl) (xv : PyNum) (m : ℕ) (s : String)
    (fv : PyVal) (hf : evalF impl xv m (.inl (.nameE s)) = .ok (.inl fv)) :
    lookupName impl xv s = .ok fv := by
  cases m with
  | zero => exact absurd hf (by simp [evalF])
  | succ m1 =>
      simp only [evalF] at hf
      cases hl : lookupName impl xv s with
      | ok v =>
          rw [hl] at hf
          simp [Bind.bind, Except.bind] at hf
          rw [hf]
      | error e1 =>
          rw [hl] at hf
          simp [Bind.bind, Except.bind] at hf

/-- On the guarded fragment the stateful evaluator agrees with the pure
one and leaves the RNG state untouched: names resolve to non-opaque
values (`lookupName_mathName_not_other`), so the stateful call branch
is never taken. -/
theorem evalFS_math_pure (impl : MathImpl) (rng : RngImpl) (xv : PyNum) :
    ∀ (fuel : ℕ) (inp : PyExpr ⊕ List PyExpr) (k : ℕ),
      mathOnlyF fuel inp = true →
      evalFS impl rng xv fuel k inp = (evalF impl xv fuel inp, k) := by
  intro fuel
  induction fuel with
  | zero =>
      intro inp k h
      simp [mathOnlyF] at h
  | succ m ih =>
      intro inp k h
      rcases inp with e | l
      · cases e with
        | intLit n => rfl
        | floatLit q => rfl
        | strLit s => rfl
        | nameE s => exact evalFS_nameE impl rng xv (m + 1) k s
        | attrE a fld => simp [mathOnlyF] at h
        | negE a =>
            have ha : mathOnlyF m (.inl a) = true := by
              simpa [mathOnlyF] using h
            simp only [evalFS, evalF]
            rw [ih (.inl a) k ha]
            cases hr : evalF impl xv m (.inl a) with
            | error e1 => simp [Bind.bind, Except.bind]
            | ok r =>
                rcases r with v | vs
                · dsimp only
                  cases hneg : evalNeg v <;>
                    simp [Bind.bind, Except.bind, hneg]
                · simp [Bind.bind, Except.bind]
        | bin op a b =>
            have hab : mathOnlyF m (.inl a) = true ∧ mathOnlyF m (.inl b) = true := by
              simpa [mathOnlyF, Bool.and_eq_true] using h
            simp only [evalFS, evalF]
            rw [ih (.inl a) k hab.1]
            cases hr : evalF impl xv m (.inl a) with
            | error e1 => simp [Bind.bind, Except.bind]
            | ok ra =>
                dsimp only
                rw [ih (.inl b) k hab.2]
                cases hrb : evalF impl xv m (.inl b) with
                | error e2 => simp [Bind.bind, Except.bind]
                | ok rb =>
                    rcases ra with va | vas <;> rcases rb with vb | vbs
                    · dsimp only
                      cases hbin : evalBin impl op va vb <;>
                        simp [Bind.bind, Except.bind, hbin]
                    · simp [Bind.bind, Except.bind]
                    · simp [Bind.bind, Except.bind]
                    · simp [Bind.bind, Except.bind]
        | callE f args =>
            cases f with
            | intLit n => simp [mathOnlyF] at h
            | floatLit q => simp [mathOnlyF] at h
            | strLit s => simp [mathOnlyF] at h
            | negE a => simp [mathOnlyF] at h
            | bin op a b => simp [mathOnlyF] at h
            | attrE a fld => simp [mathOnlyF] at h
            | callE g gargs => simp [mathOnlyF] at h
            | nameE s =>
                have hs : mathName s = true ∧ mathOnlyF m (.inr args) = true := by
                  simpa [mathOnlyF, Bool.and_eq_true] using h
                simp only [evalFS, evalF]
                rw [evalFS_nameE impl rng xv m k s]
                cases hf : evalF impl xv m (.inl (.nameE s)) with
                | error e1 => simp [Bind.bind, Except.bind]
                | ok rf =>
                    dsimp only
                    rw [ih (.inr args) k hs.2]
                    cases hargs : evalF impl xv m (.inr args) with
                    | error e2 => simp [Bind.bind, Except.bind]
                    | ok ras =>
                        rcases rf with fv | fvs <;> rcases ras with v1 | avs
                        · simp [Bind.bind, Except.bind]
                        · dsimp only
                          have hnot := lookupName_mathName_not_other impl xv s hs.1
                          cases fv with
                          | other d =>
                              exact absurd (evalF_nameE_ok impl xv m s _ hf) (hnot d)
                          | num w =>
                              dsimp only
                              cases happ : applyCall impl (.num w) avs <;>
                                simp [Bind.bind, Except.bind, happ]
                          | complexVal re im =>
                              dsimp only
                              cases happ : applyCall impl (.complexVal re im) avs <;>
                                simp [Bind.bind, Except.bind, happ]
                          | str s2 =>
                              dsimp only
                              cases happ : applyCall impl (.str s2) avs <;>
                                simp [Bind.bind, Except.bind, happ]
                          | module m2 =>
                              dsimp only
                              cases happ : applyCall impl (.module m2) avs <;>
                                simp [Bind.bind, Except.bind, happ]
                          | mathFn mf =>
                              dsimp only
                              cases happ : applyCall impl (.mathFn mf) avs <;>
                                simp [Bind.bind, Except.bind, happ]
                          | builtinFn bf =>
                              dsimp only
                              cases happ : applyCall impl (.builtinFn bf) avs <;>
                                simp [Bind.bind, Except.bind, happ]
                        · simp [Bind.bind, Except.bind]
                        · simp [Bind.bind, Except.bind]
      · cases l with
        | nil => rfl
        | cons a rest =>
            have hab : mathOnlyF m (.inl a) = true ∧ mathOnlyF m (.inr rest) = true := by
              simpa [mathOnlyF, Bool.and_eq_true] using h
            simp only [evalFS, evalF]
            rw [ih (.inl a) k hab.1]
            cases hr : evalF impl xv m (.inl a) with
            | error e1 => simp [Bind.bind, Except.bind]
            | ok ra =>
                dsimp only
                rw [ih (.inr rest) k hab.2]
                cases hrr : evalF impl xv m (.inr rest) with
                | error e2 => simp [Bind.bind, Except.bind]
                | ok rr =>
                    rcases ra with va | vas <;> rcases rr with v1 | vlist
                    · simp [Bind.bind, Except.bind]
                    · simp [Bind.bind, Except.bind]
                    · simp [Bind.bind, Except.bind]
                    · simp [Bind.bind, Except.bind]

theorem samplePointS_math_pure (impl : MathImpl) (rng : RngImpl) (c : Compiled)
    (xq : ℚ) (k : ℕ) (h : mathOnlyF c.fuel (.inl c.ast) = true) :
    samplePointS impl rng c xq k = (samplePoint impl c xq, k) := by
  rw [samplePointS, samplePoint, evalPyS, evalPy,
    evalFS_math_pure impl rng _ c.fuel (.inl c.ast) k h]
  cases hv : evalF impl (.float .np (.finite xq)) c.fuel (.inl c.ast) with
  | error e1 => rfl
  | ok r =>
      rcases r with v | vs
      · cases v <;> rfl
      · rfl

theorem sampleLoopS_math_pure (impl : MathImpl) (rng : RngImpl) (c : Compiled)
    (h : mathOnlyF c.fuel (.inl c.ast) = true) :
    ∀ (l : List ℚ) (k : ℕ),
      sampleLoopS impl rng c l k =
        (l.map (fun xq => (xq, samplePoint impl c xq)), k) := by
  intro l
  induction l with
  | nil => intro k; rfl
  | cons xq rest ihl =>
      intro k
      rw [sampleLoopS, samplePointS_math_pure impl rng c xq k h]
      dsimp only
      rw [ihl k]
      rfl

/-- C1: the claim says every expression referencing an identifier that is
neither `x` nor in the allow-list — including `__import__`, `open`,
`eval` — fails compilation with `UnknownNameError` before any
evaluation, never executing the forbidden call.  The code instead leaves
CPython's builtins reachable (`eval` inserts `__builtins__` into
`ALLOWED_GLOBALS`): compiling `__import__("os")` succeeds and its smoke
evaluation performs the import, returning the `os` module; `open(x)`
compiles (the smoke run opens file descriptor 1); and `eval(x)` fails
with `TypeError` through the catch-all branch, not through the
`NameError` branch. -/
theorem c1_compile_admits_builtins :
    ((compileExpr impl0 "__import__(\"os\")").map fun c =>
        evalPy impl0 (.int 1) c) = .ok (.ok (.module "os")) ∧
    (compileExpr impl0 "open(x)").isOk = true ∧
    compileExpr impl0 "eval(x)" = .error (.otherErr .typeErr) :=
  ⟨rfl, rfl, rfl⟩

/-- C2: the claim says a compiled expression can never perform attribute
access, imports, or filesystem access.  The code permits all three:
`math.floor(x)` compiles and each sample point performs the attribute
access and call, and `__import__("os").getcwd()` compiles — its smoke
evaluation imports `os`, takes an attribute of it, and calls it. -/
theorem c2_compile_admits_attribute_access :
    ((compileExpr impl0 "math.floor(x)").map fun c =>
        sample impl0 c 0 1 2) =
      .ok [(0, some (.num (.int 0))), (1, some (.num (.int 1)))] ∧
    ((compileExpr impl0 "__import__(\"os\").getcwd()").map fun c =>
        evalPy impl0 (.int 1) c) = .ok (.ok (.other "os.getcwd call")) :=
  ⟨rfl, rfl⟩

/-- C3: `sample` is total on every compiled expression and valid domain:
the series keeps one entry per grid point (a failure at one point never
aborts the rest), an evaluation error at a point is recorded as
`Undefined` (`none`, i.e. `np.nan`), a complex result is likewise
recorded as `Undefined`, and any other value is kept. -/
theorem c3_sample_fault_isolated (impl : MathImpl) (c : Compiled)
    (a b : ℚ) (n : ℕ) (_hab : a < b) (_hn : 2 ≤ n) :
    (sample impl c a b n).length = n ∧
    ∀ p ∈ sample impl c a b n,
      (∀ e, evalPy impl (.float .np (.finite p.1)) c = .error e → p.2 = none) ∧
      (∀ re im, evalPy impl (.float .np (.finite p.1)) c = .ok (.complexVal re im) →
        p.2 = none) ∧
      (∀ v, evalPy impl (.float .np (.finite p.1)) c = .ok v →
        (∀ re im, v ≠ .complexVal re im) → p.2 = some v) := by
  constructor
  · rw [sample, List.length_map, linspace, List.length_map, List.length_range]
  · intro p hp
    obtain ⟨xq, hxq, rfl⟩ := List.mem_map.mp hp
    refine ⟨?_, ?_, ?_⟩
    · intro e he
      simp only [samplePoint, he]
    · intro re im he
      simp only [samplePoint, he]
    · intro v hv hnc
      cases v with
      | complexVal re im => exact absurd rfl (hnc re im)
      | num w => simp only [samplePoint, hv]
      | str s => simp only [samplePoint, hv]
      | module m => simp only [samplePoint, hv]
      | mathFn f => simp only [samplePoint, hv]
      | builtinFn f => simp only [samplePoint, hv]
      | other d => simp only [samplePoint, hv]

/-- Witness for C3 at the expression `x` over `[-1, 1]` with 3 points. -/
theorem c3_sample_fault_isolated_witness :
    ((-1 : ℚ) < 1 ∧ 2 ≤ 3) ∧
    ((sample impl0 ⟨.nameE "x", 10⟩ (-1) 1 3).length = 3 ∧
     ∀ p ∈ sample impl0 ⟨.nameE "x", 10⟩ (-1) 1 3,
       (∀ e, evalPy impl0 (.float .np (.finite p.1)) ⟨.nameE "x", 10⟩ = .error e →
         p.2 = none) ∧
       (∀ re im, evalPy impl0 (.float .np (.finite p.1)) ⟨.nameE "x", 10⟩ =
           .ok (.complexVal re im) → p.2 = none) ∧
       (∀ v, evalPy impl0 (.float .np (.finite p.1)) ⟨.nameE "x", 10⟩ = .ok v →
         (∀ re im, v ≠ .complexVal re im) → p.2 = some v)) :=
  ⟨⟨by decide, by decide⟩,
   c3_sample_fault_isolated impl0 ⟨.nameE "x", 10⟩ (-1) 1 3 (by decide) (by decide)⟩

/-- C4, counterexample: the claim says an expression that is merely
numerically undefined at `x = 1` but valid elsewhere is not rejected as
a compile error.  `1/(x-1)` is rejected: its smoke evaluation at `x = 1`
raises `ZeroDivisionError`, which the catch-all `except` reports as a
compile-time failure — even though the same compiled tree evaluates fine
at the grid point `x = 0` (to `-1.0`). -/
theorem c4_smoke_confuses_pointwise_failure :
    parseExpr "1/(x-1)" =
      some (.bin .divB (.intLit 1) (.bin .subB (.nameE "x") (.intLit 1))) ∧
    compileExpr impl0 "1/(x-1)" = .error (.otherErr .zeroDiv) ∧
    samplePoint impl0
        ⟨.bin .divB (.intLit 1) (.bin .subB (.nameE "x") (.intLit 1)), 72⟩ 0 =
      some (.num (.float .np (.finite (-1)))) :=
  ⟨rfl, rfl, rfl⟩

/-- C4, amended: `compile` performs a smoke evaluation at the fixed
representative `x = 1`; compilation succeeds exactly when parsing and
this smoke evaluation succeed.  In particular any smoke failure —
unknown name, or a numeric failure at `x = 1` — is reported as a
compile-time failure, and an expression whose smoke run succeeds is
never rejected regardless of failures at other points. -/
theorem c4_compile_ok_iff_smoke_ok (impl : MathImpl) (s : String)
    (ast : PyExpr) (h : parseExpr s = some ast) :
    (compileExpr impl s).isOk =
      (evalF impl (.int 1) (8 * (s.length + 2)) (.inl ast)).isOk := by
  simp only [compileExpr, h]
  cases hr : evalF impl (.int 1) (8 * (s.length + 2)) (.inl ast) with
  | ok v => rfl
  | error e => cases e <;> rfl

/-- Witness for the amended C4 at `log(x)`: the smoke run evaluates
`log(1)` successfully (mirroring the spec's own example) and compilation
succeeds, even though `log` fails at other grid points. -/
theorem c4_compile_ok_iff_smoke_ok_witness :
    parseExpr "log(x)" = some (.callE (.nameE "log") [.nameE "x"]) ∧
    ((compileExpr impl0 "log(x)").isOk =
      (evalF impl0 (.int 1) (8 * ("log(x)".length + 2))
        (.inl (.callE (.nameE "log") [.nameE "x"]))).isOk) ∧
    (compileExpr impl0 "log(x)").isOk = true :=
  ⟨rfl, c4_compile_ok_iff_smoke_ok impl0 "log(x)" _ rfl, rfl⟩

/-- C5: for every domain with `x_max > x_min` and `sample_count ≥ 2`,
the sampler produces exactly `sample_count` points; their x-values are
the `linspace` grid `x_i = x_min + i*(x_max-x_min)/(sample_count-1)`,
strictly ascending, with first point `x_min` and last point `x_max`;
and the series length never depends on how many y-values are
`Undefined` (it equals the grid length for every expression and every
interpretation). -/
theorem c5_sampler_grid (a b : ℚ) (n : ℕ) (hab : a < b) (hn : 2 ≤ n) :
    ∀ (impl : MathImpl) (c : Compiled),
      (sample impl c a b n).length = n ∧
      (sample impl c a b n).map Prod.fst = linspace a b n ∧
      (∀ i, i < n → (linspace a b n)[i]? =
        some (a + (i : ℚ) * (b - a) / ((n : ℚ) - 1))) ∧
      List.Pairwise (· < ·) (linspace a b n) ∧
      (linspace a b n)[0]? = some a ∧
      (linspace a b n)[n - 1]? = some b := by
  intro impl c
  have hform : ∀ i : ℕ, qAdd a (qDiv (qMul (i : ℚ) (qSub b a)) (qSub (n : ℚ) 1)) =
      a + (i : ℚ) * (b - a) / ((n : ℚ) - 1) := by
    intro i
    rw [qAdd_eq, qDiv_eq, qMul_eq, qSub_eq, qSub_eq]
  have hn1 : (0:ℚ) < (n : ℚ) - 1 := by
    have : (2:ℚ) ≤ (n : ℚ) := by exact_mod_cast hn
    linarith
  have hget : ∀ i, i < n → (linspace a b n)[i]? =
      some (a + (i : ℚ) * (b - a) / ((n : ℚ) - 1)) := by
    intro i hi
    rw [linspace, List.getElem?_map, List.getElem?_range hi, Option.map_some']
    rw [hform]
  refine ⟨?_, ?_, hget, ?_, ?_, ?_⟩
  · rw [sample, List.length_map, linspace, List.length_map, List.length_range]
  · rw [sample, List.map_map]
    have hcomp : Prod.fst ∘ (fun xq : ℚ => (xq, samplePoint impl c xq)) = id := rfl
    rw [hcomp, List.map_id]
  · rw [linspace, List.pairwise_map]
    refine List.Pairwise.imp ?_ (List.pairwise_lt_range n)
    intro i j hij
    rw [hform, hform]
    have hs : (0:ℚ) < (b - a) / ((n : ℚ) - 1) := div_pos (by linarith) hn1
    have hij2 : (i : ℚ) < (j : ℚ) := by exact_mod_cast hij
    calc a + (i : ℚ) * (b - a) / ((n : ℚ) - 1)
        = a + (i : ℚ) * ((b - a) / ((n : ℚ) - 1)) := by ring
      _ < a + (j : ℚ) * ((b - a) / ((n : ℚ) - 1)) := by
          exact add_lt_add_left (mul_lt_mul_of_pos_right hij2 hs) a
      _ = a + (j : ℚ) * (b - a) / ((n : ℚ) - 1) := by ring
  · rw [hget 0 (by omega)]
    norm_num
  · rw [hget (n - 1) (by omega)]
    have hcast : ((n - 1 : ℕ) : ℚ) = (n : ℚ) - 1 := by
      have h1 : (1:ℕ) ≤ n := by omega
      push_cast [h1]
      ring
    rw [hcast]
    congr 1
    field_simp

/-- Witness for C5 at the domain `[0, 1]` with 2 points. -/
theorem c5_sampler_grid_witness :
    ((0 : ℚ) < 1 ∧ 2 ≤ 2) ∧
    ((sample impl0 ⟨.nameE "x", 10⟩ 0 1 2).length = 2 ∧
     (sample impl0 ⟨.nameE "x", 10⟩ 0 1 2).map Prod.fst = linspace 0 1 2 ∧
     (∀ i : ℕ, i < 2 → (linspace 0 1 2)[i]? =
       some (0 + (i : ℚ) * (1 - 0) / (((2 : ℕ) : ℚ) - 1))) ∧
     List.Pairwise (· < ·) (linspace 0 1 2) ∧
     (linspace 0 1 2)[0]? = some 0 ∧
     (linspace 0 1 2)[2 - 1]? = some 1) :=
  ⟨⟨by decide, by decide⟩,
   c5_sampler_grid 0 1 2 (by decide) (by decide) impl0 ⟨.nameE "x", 10⟩⟩

/-- C6: an invalid domain — a bound that `float()` rejects, or
`x_max ≤ x_min` — fails the request with the corresponding domain error
before any compilation or sampling work occurs: the outcome is the same
for every non-empty expression string, including strings that could not
even be parsed. -/
theorem c6_invalid_domain_first (impl : MathImpl) (fs aS bS : String)
    (hfs : fs ≠ "") (ha : aS ≠ "") (hb : bS ≠ "") :
    (pyFloat aS = none ∨ pyFloat bS = none →
      plot_view impl fs aS bS = .errBadNumber) ∧
    (∀ qa qb, pyFloat aS = some qa → pyFloat bS = some qb → qb ≤ qa →
      plot_view impl fs aS bS = .errBadRange) := by
  have hor : ¬(aS = "" ∨ bS = "") := by
    push_neg
    exact ⟨ha, hb⟩
  constructor
  · intro hnone
    rw [plot_view, if_neg hfs, if_neg hor]
    rcases hnone with h1 | h1
    · rw [h1]
    · rw [h1]
      cases pyFloat aS <;> rfl
  · intro qa qb h1 h2 hle
    rw [plot_view, if_neg hfs, if_neg hor, h1, h2]
    simp only [if_pos hle]

/-- Witness for C6: the non-numeric bound `"abc"` yields the bad-number
error even for the unparseable expression `"x +"` (so no compilation
work influenced the outcome), and `x_min = 5, x_max = 2` yields the
range error. -/
theorem c6_invalid_domain_first_witness :
    plot_view impl0 "x +" "abc" "1" = .errBadNumber ∧
    plot_view impl0 "x" "5" "2" = .errBadRange :=
  ⟨(c6_invalid_domain_first impl0 "x +" "abc" "1" (by decide) (by decide)
      (by decide)).1 (Or.inl rfl),
   (c6_invalid_domain_first impl0 "x" "5" "2" (by decide) (by decide)
      (by decide)).2 5 2 (by decide) (by decide) (by decide)⟩

/-- C7: a string the expression grammar rejects fails compilation with
the syntax error, an error kind distinct from the unknown-name error. -/
theorem c7_malformed_is_syntax_error (impl : MathImpl) (s : String)
    (h : parseExpr s = none) :
    compileExpr impl s = .error .syntaxErr ∧
    ∀ n, (CompileError.syntaxErr ≠ CompileError.unknownName n) :=
  ⟨by simp only [compileExpr, h], fun _ hne => CompileError.noConfusion hne⟩

/-- Witness for C7 at the malformed string `"x +"`. -/
theorem c7_malformed_is_syntax_error_witness :
    parseExpr "x +" = none ∧ compileExpr impl0 "x +" = .error .syntaxErr :=
  ⟨rfl, (c7_malformed_is_syntax_error impl0 "x +" rfl).1⟩

/-- C8: the claim says sampling `1/x` over `[-2, 2]` with 5 points
records the point at `x = 0` as `Undefined`.  The grid values are
`np.float64`, and NumPy float64 division by zero does not raise — it
returns `inf` with a `RuntimeWarning` — so nothing reaches the
`except` clause and the recorded value at `x = 0` is `inf`, not
`np.nan`; every other point is finite and equals `1/x`. -/
theorem c8_div_by_zero_point_is_inf :
    ((compileExpr impl0 "1/x").map fun c => sample impl0 c (-2) 2 5) =
      .ok [(-2, some (.num (.float .np (.finite (mkRat (-1) 2))))),
           (-1, some (.num (.float .np (.finite (-1))))),
           (0, some (.num (.float .np .pinf))),
           (1, some (.num (.float .np (.finite 1)))),
           (2, some (.num (.float .np (.finite (mkRat 1 2)))))] :=
  rfl

/-- C9, counterexample: the claim says two `sample` calls with identical
(compiled expression, domain) inputs yield identical series with no
hidden state mutated between them.  Through the builtins hole shown in
C1/C2, `__import__("random").random()` compiles (its smoke run
succeeds), and each sampled point invokes the process-global RNG: under
the stateful semantics, with an output interpretation whose successive
draws differ — as the real Mersenne Twister's do — the first call
leaves the hidden RNG state advanced and the second identical call
returns a different series. -/
theorem c9_rng_call_not_idempotent :
    compileExpr impl0 "__import__(\"random\").random()" = .ok ⟨rngAst, 248⟩ ∧
    (sampleS impl0 rng0 ⟨rngAst, 248⟩ (-1) 1 2
        ((sampleS impl0 rng0 ⟨rngAst, 248⟩ (-1) 1 2 0).2)).1 ≠
      (sampleS impl0 rng0 ⟨rngAst, 248⟩ (-1) 1 2 0).1 ∧
    (sampleS impl0 rng0 ⟨rngAst, 248⟩ (-1) 1 2 0).2 ≠ 0 :=
  ⟨rfl, by decide, by decide⟩

/-- C9, amended: sampling is idempotent on the expression fragment the
sandbox is meant to admit.  For every expression built from literals,
the variable `x`, unary minus, the binary operators, and direct calls
to the allow-listed functions, the stateful semantics mutates no hidden
state, agrees with the pure sampler, and a second call with identical
(expression, domain) inputs — started from whatever state the first
left — returns the identical series.  Expressions reaching stateful
callables through the builtins hole of C1/C2 falsify the unrestricted
claim. -/
theorem c9_sample_deterministic_math (impl : MathImpl) (rng : RngImpl)
    (c : Compiled) (a b : ℚ) (n k : ℕ)
    (h : mathOnlyF c.fuel (.inl c.ast) = true) :
    (sampleS impl rng c a b n k).2 = k ∧
    (sampleS impl rng c a b n k).1 = sample impl c a b n ∧
    (sampleS impl rng c a b n ((sampleS impl rng c a b n k).2)).1 =
      (sampleS impl rng c a b n k).1 := by
  have hl := sampleLoopS_math_pure impl rng c h (linspace a b n)
  refine ⟨?_, ?_, ?_⟩ <;> simp [sampleS, hl, sample]

/-- Witness for the amended C9 at the expression `x`. -/
theorem c9_sample_deterministic_math_witness :
    mathOnlyF (10 : ℕ) (.inl (PyExpr.nameE "x")) = true ∧
    ((sampleS impl0 rng0 ⟨.nameE "x", 10⟩ (-1) 1 3 0).2 = 0 ∧
     (sampleS impl0 rng0 ⟨.nameE "x", 10⟩ (-1) 1 3 0).1 =
       sample impl0 ⟨.nameE "x", 10⟩ (-1) 1 3 ∧
     (sampleS impl0 rng0 ⟨.nameE "x", 10⟩ (-1) 1 3
         ((sampleS impl0 rng0 ⟨.nameE "x", 10⟩ (-1) 1 3 0).2)).1 =
       (sampleS impl0 rng0 ⟨.nameE "x", 10⟩ (-1) 1 3 0).1) :=
  ⟨by decide,
   c9_sample_deterministic_math impl0 rng0 ⟨.nameE "x", 10⟩ (-1) 1 3 0 (by decide)⟩

/-- C10: `plot_function` raises `TypeError` whenever `func` is not
callable, for every pair of bound arguments — including bounds whose
conversion or validation would itself fail, so the callable check
precedes both; a callable `func` with a non-numeric bound instead
reaches the conversion and fails with `ValueError`. -/
theorem c10_callable_check_first :
    (∀ (d : String) (aV bV : BoundVal),
        plot_function (.notCallable d) aV bV = .error .typeErr) ∧
    (∀ (f : ℚ → Except PyErr PyVal) (bV : BoundVal),
        plot_function (.fnObj f) (.strB "abc") bV = .error .valueErr) := by
  constructor
  · intro d aV bV
    rfl
  · intro f bV
    rw [plot_function]
    have habc : pyFloatVal (.strB "abc") = none := rfl
    rw [habc]
